import Mathlib

/-
Verification of the identity-and-reminder core of the Expense-Calculator
repository.

The development shallowly embeds:
  * the salary reminder date arithmetic of
    src/frontend/src/components/SalaryReminder.tsx (calculateDaysRemaining),
    on top of a model of the JavaScript Date constructor semantics
    (0-based months, overflow normalization of out-of-range day/month
    arguments, proleptic Gregorian calendar, fixed 86400000 ms days);
  * the token issue/verify functions of src/backend/src/utils (generateToken,
    verifyToken) over a model of the jsonwebtoken library (signature =
    deterministic MAC over payload and secret; expiry check against a clock);
  * the authenticate middleware of src/backend/src/middleware/auth.ts;
  * the salary route handlers and the registration handler of the backend
    routes, with the users table UNIQUE(email) constraint of the schema.
-/

namespace ExpenseCalc

/- ### Calendar model: JavaScript Date semantics -/

def msPerDay : Int := 86400000

/-- Gregorian leap year predicate, as used by the JavaScript Date object. -/
def isLeap (y : Int) : Bool :=
  (y % 4 == 0 && y % 100 != 0) || (y % 400 == 0)

/-- Number of days in month m (1-based, 1..12) of year y; 0 for an invalid
month index. -/
def daysInMonth (y : Int) (m : Nat) : Nat :=
  match m with
  | 1 => 31
  | 2 => if isLeap y then 29 else 28
  | 3 => 31
  | 4 => 30
  | 5 => 31
  | 6 => 30
  | 7 => 31
  | 8 => 31
  | 9 => 30
  | 10 => 31
  | 11 => 30
  | 12 => 31
  | _ => 0

/-- A civil calendar date, with 1-based month, as observed through the
JavaScript accessors getFullYear / (getMonth + 1) / getDate. -/
structure CivilDate where
  year : Int
  month : Nat
  day : Nat
deriving DecidableEq, Repr

/-- The date is a real calendar date. -/
def CivilDate.isValid (c : CivilDate) : Prop :=
  1 ≤ c.month ∧ c.month ≤ 12 ∧ 1 ≤ c.day ∧ c.day ≤ daysInMonth c.year c.month

instance (c : CivilDate) : Decidable c.isValid := by
  unfold CivilDate.isValid; infer_instance

/-- Successor month with year rollover. -/
def nextYM (y : Int) (m : Nat) : Int × Nat :=
  if m = 12 then (y + 1, 1) else (y, m + 1)

/-- Predecessor month with year rollover. -/
def prevYM (y : Int) (m : Nat) : Int × Nat :=
  if m = 1 then (y - 1, 12) else (y, m - 1)

/-- Day-overflow normalization of the JavaScript Date constructor: while the
day exceeds the month length, carry into the following month. -/
def normDayUp (y : Int) (m : Nat) (d : Nat) : CivilDate :=
  if h : daysInMonth y m = 0 ∨ d ≤ daysInMonth y m then ⟨y, m, d⟩
  else
    normDayUp (nextYM y m).1 (nextYM y m).2 (d - daysInMonth y m)
termination_by d
decreasing_by
  push_neg at h
  omega

/-- Day-underflow normalization of the JavaScript Date constructor: while the
day argument is below 1, borrow from the preceding month (day 0 addresses the
last day of the preceding month). -/
def normDayDown (y : Int) (m : Nat) (d : Int) : CivilDate :=
  if hd : 1 ≤ d then normDayUp y m d.toNat
  else
    if h : daysInMonth (prevYM y m).1 (prevYM y m).2 = 0 then ⟨y, m, 0⟩
    else
      normDayDown (prevYM y m).1 (prevYM y m).2
        (d + daysInMonth (prevYM y m).1 (prevYM y m).2)
termination_by (1 - d).toNat
decreasing_by
  push_neg at hd
  omega

/-- Model of the JavaScript expression new Date(y, m0, d): m0 is the 0-based
month argument (any integer, normalized with year carry), d the day argument
(any integer, normalized with month carry/borrow). -/
def mkDate (y m0 d : Int) : CivilDate :=
  normDayDown (y + m0 / 12) ((m0 % 12).toNat + 1) d

/-- Days from the civil epoch 0000-01-01 to the first day of year y
(proleptic Gregorian). -/
def daysToYear (y : Int) : Int :=
  365 * y + (y + 3) / 4 - (y + 99) / 100 + (y + 399) / 400

/-- Days in year y strictly before month m (1-based). -/
def daysBeforeMonth (y : Int) (m : Nat) : Int :=
  let feb : Int := if isLeap y then 29 else 28
  match m with
  | 1 => 0
  | 2 => 31
  | 3 => 31 + feb
  | 4 => 62 + feb
  | 5 => 92 + feb
  | 6 => 123 + feb
  | 7 => 153 + feb
  | 8 => 184 + feb
  | 9 => 215 + feb
  | 10 => 245 + feb
  | 11 => 276 + feb
  | 12 => 306 + feb
  | _ => 0

/-- Absolute day number of a civil date (the getTime value divided by
86400000, up to the epoch offset, for a local-midnight instant). -/
def dayNumber (c : CivilDate) : Int :=
  daysToYear c.year + daysBeforeMonth c.year c.month + ((c.day : Int) - 1)

/-- Ceiling division for a positive divisor (Math.ceil of the exact
quotient). -/
def ceilDiv (a b : Int) : Int := -((-a) / b)

/-- The candidate date of calculateDaysRemaining before the day-31 clamp
(src/frontend/src/components/SalaryReminder.tsx, lines 33-38): new
Date(currentYear, currentMonth, salaryDay), moved to the following month
when the salary day has already passed. getMonth() is today.month - 1
(0-based). -/
def preClampDate (salaryDay : Int) (today : CivilDate) : CivilDate :=
  let currentYear := today.year
  let currentMonth : Int := (today.month : Int) - 1
  let currentDay : Int := (today.day : Int)
  let next1 := mkDate currentYear currentMonth salaryDay
  if salaryDay < currentDay then mkDate currentYear (currentMonth + 1) salaryDay
  else next1

/-- Shallow embedding of the internal nextSalaryDate computation of
calculateDaysRemaining (src/frontend/src/components/SalaryReminder.tsx,
lines 33-44), including the day-31 clamp of lines 41-44. -/
def nextSalaryDate (salaryDay : Int) (today : CivilDate) : CivilDate :=
  let next2 := preClampDate salaryDay today
  if salaryDay = 31 ∧ ((next2.day : Int) ≠ 31) then
    mkDate today.year ((today.month : Int) - 1 + 1) 0
  else next2

/-- Shallow embedding of calculateDaysRemaining
(src/frontend/src/components/SalaryReminder.tsx, lines 24-51). msOfDay is
the elapsed milliseconds of the current day (new Date() minus local
midnight), so getTime of now is dayNumber today * msPerDay + msOfDay and
getTime of the candidate midnight is dayNumber of it times msPerDay. The
source returns null both for an out-of-range salaryDay and for a negative
computed diffDays. -/
def calculateDaysRemaining (salaryDay : Int) (today : CivilDate) (msOfDay : Int) :
    Option Int :=
  if salaryDay < 1 ∨ salaryDay > 31 then none
  else
    let next := nextSalaryDate salaryDay today
    let diffTime := dayNumber next * msPerDay - (dayNumber today * msPerDay + msOfDay)
    let diffDays := ceilDiv diffTime msPerDay
    if 0 ≤ diffDays then some diffDays else none

/- ### Calendar lemmas -/

theorem daysInMonth_bounds (y : Int) (m : Nat) (h1 : 1 ≤ m) (h2 : m ≤ 12) :
    28 ≤ daysInMonth y m ∧ daysInMonth y m ≤ 31 := by
  interval_cases m <;> simp only [daysInMonth] <;> (try split) <;> omega

theorem nextYM_valid (y : Int) (m : Nat) (h1 : 1 ≤ m) (h2 : m ≤ 12) :
    1 ≤ (nextYM y m).2 ∧ (nextYM y m).2 ≤ 12 := by
  unfold nextYM; split <;> simp <;> omega

theorem prevYM_nextYM (y : Int) (m : Nat) (h1 : 1 ≤ m) (h2 : m ≤ 12) :
    prevYM (nextYM y m).1 (nextYM y m).2 = (y, m) := by
  unfold nextYM prevYM
  by_cases h : m = 12 <;> simp [h] <;> omega

theorem normDayUp_eq_self (y : Int) (m : Nat) (d : Nat) (hd1 : 1 ≤ d)
    (hd2 : d ≤ daysInMonth y m) : normDayUp y m d = ⟨y, m, d⟩ := by
  rw [normDayUp, dif_pos (Or.inr hd2)]

theorem normDayUp_carry (y : Int) (m : Nat) (d : Nat) (h1 : 1 ≤ m) (h2 : m ≤ 12)
    (hd1 : daysInMonth y m < d) (hd2 : d ≤ daysInMonth y m + 28) :
    normDayUp y m d = ⟨(nextYM y m).1, (nextYM y m).2, d - daysInMonth y m⟩ := by
  have hb := daysInMonth_bounds y m h1 h2
  have hv := nextYM_valid y m h1 h2
  have hb2 := daysInMonth_bounds (nextYM y m).1 (nextYM y m).2 hv.1 hv.2
  rw [normDayUp, dif_neg (by omega)]
  exact normDayUp_eq_self _ _ _ (by omega) (by omega)

theorem normDayDown_of_pos (y : Int) (m : Nat) (d : Int) (hd : 1 ≤ d) :
    normDayDown y m d = normDayUp y m d.toNat := by
  rw [normDayDown, dif_pos hd]

theorem normDayDown_zero (y : Int) (m : Nat) (h1 : 1 ≤ m) (h2 : m ≤ 12) :
    normDayDown y m 0 =
      ⟨(prevYM y m).1, (prevYM y m).2, daysInMonth (prevYM y m).1 (prevYM y m).2⟩ := by
  have hp1 : 1 ≤ (prevYM y m).2 ∧ (prevYM y m).2 ≤ 12 := by
    unfold prevYM; split <;> simp <;> omega
  have hb := daysInMonth_bounds (prevYM y m).1 (prevYM y m).2 hp1.1 hp1.2
  rw [normDayDown, dif_neg (by omega), dif_neg (by omega),
    normDayDown_of_pos _ _ _ (by omega)]
  rw [normDayUp_eq_self _ _ _ (by omega) (by omega)]
  congr 1
  omega

theorem mkDate_el (y : Int) (m0 : Int) (d : Int) (h0 : 0 ≤ m0) (h11 : m0 ≤ 11) :
    mkDate y m0 d = normDayDown y (m0.toNat + 1) d := by
  unfold mkDate
  have e1 : m0 / 12 = 0 := by omega
  have e2 : m0 % 12 = m0 := by omega
  rw [e1, e2, add_zero]

theorem mkDate_twelve (y : Int) (d : Int) :
    mkDate y 12 d = normDayDown (y + 1) 1 d := by
  unfold mkDate
  norm_num

theorem mkDate_cur (y : Int) (m : Nat) (hm1 : 1 ≤ m) (hm2 : m ≤ 12) (D : Int) :
    mkDate y ((m : Int) - 1) D = normDayDown y m D := by
  rw [mkDate_el y _ D (by omega) (by omega)]
  congr 1
  omega

theorem mkDate_nextm (y : Int) (m : Nat) (hm1 : 1 ≤ m) (hm2 : m ≤ 12) (D : Int) :
    mkDate y ((m : Int) - 1 + 1) D = normDayDown (nextYM y m).1 (nextYM y m).2 D := by
  by_cases h12 : m = 12
  · subst h12
    have : ((12 : Nat) : Int) - 1 + 1 = 12 := by norm_num
    rw [this, mkDate_twelve]
    rfl
  · rw [mkDate_el y _ D (by omega) (by omega)]
    unfold nextYM
    rw [if_neg h12]
    congr 1
    omega

theorem daysToYear_succ (y : Int) :
    daysToYear (y + 1) = daysToYear y + (if isLeap y then 366 else 365) := by
  by_cases h : isLeap y = true
  · rw [if_pos h]
    simp only [isLeap, Bool.or_eq_true, Bool.and_eq_true, beq_iff_eq, bne_iff_ne,
      ne_eq] at h
    unfold daysToYear
    omega
  · rw [if_neg (by simp [h])]
    simp only [isLeap, Bool.or_eq_true, Bool.and_eq_true, beq_iff_eq, bne_iff_ne,
      ne_eq] at h
    push_neg at h
    unfold daysToYear
    omega

theorem daysBeforeMonth_succ (y : Int) (m : Nat) (h1 : 1 ≤ m) (h2 : m ≤ 11) :
    daysBeforeMonth y (m + 1) = daysBeforeMonth y m + daysInMonth y m := by
  interval_cases m <;> simp only [daysBeforeMonth, daysInMonth] <;> (try split) <;> omega

theorem dayNumber_sub_same (y : Int) (m : Nat) (a b : Nat) :
    dayNumber ⟨y, m, a⟩ - dayNumber ⟨y, m, b⟩ = (a : Int) - b := by
  unfold dayNumber
  dsimp only
  omega

theorem dayNumber_next (y : Int) (m : Nat) (h1 : 1 ≤ m) (h2 : m ≤ 12) (a : Nat) :
    dayNumber ⟨(nextYM y m).1, (nextYM y m).2, a⟩
      = dayNumber ⟨y, m, daysInMonth y m⟩ + (a : Int) := by
  by_cases h12 : m = 12
  · subst h12
    have e : nextYM y 12 = (y + 1, 1) := rfl
    rw [e]
    simp only [dayNumber, daysBeforeMonth, daysInMonth]
    rw [daysToYear_succ]
    cases h : isLeap y <;> simp [h] <;> omega
  · have h2' : m ≤ 11 := by omega
    have e : nextYM y m = (y, m + 1) := by
      unfold nextYM
      rw [if_neg h12]
    rw [e]
    simp only [dayNumber]
    rw [daysBeforeMonth_succ y m h1 h2']
    omega

/- ### Case analysis of the candidate date for a valid current date -/

theorem preClamp_sameMonth (y : Int) (m : Nat) (d : Nat) (D : Int)
    (hm1 : 1 ≤ m) (hm2 : m ≤ 12)
    (hA : ¬ D < (d : Int)) (hD1 : 1 ≤ D) (hDdim : D ≤ daysInMonth y m) :
    preClampDate D ⟨y, m, d⟩ = ⟨y, m, D.toNat⟩ := by
  unfold preClampDate
  dsimp only
  rw [if_neg hA, mkDate_cur y m hm1 hm2 D, normDayDown_of_pos _ _ _ hD1,
    normDayUp_eq_self _ _ _ (by omega) (by omega)]

theorem preClamp_carry (y : Int) (m : Nat) (d : Nat) (D : Int)
    (hm1 : 1 ≤ m) (hm2 : m ≤ 12)
    (hA : ¬ D < (d : Int)) (hDdim : (daysInMonth y m : Int) < D) (hD31 : D ≤ 31) :
    preClampDate D ⟨y, m, d⟩ =
      ⟨(nextYM y m).1, (nextYM y m).2, D.toNat - daysInMonth y m⟩ := by
  have hb := daysInMonth_bounds y m hm1 hm2
  unfold preClampDate
  dsimp only
  rw [if_neg hA, mkDate_cur y m hm1 hm2 D, normDayDown_of_pos _ _ _ (by omega),
    normDayUp_carry y m _ hm1 hm2 (by omega) (by omega)]

theorem preClamp_nextMonth (y : Int) (m : Nat) (d : Nat) (D : Int)
    (hm1 : 1 ≤ m) (hm2 : m ≤ 12)
    (hB : D < (d : Int)) (hD1 : 1 ≤ D)
    (hDdim : D ≤ daysInMonth (nextYM y m).1 (nextYM y m).2) :
    preClampDate D ⟨y, m, d⟩ = ⟨(nextYM y m).1, (nextYM y m).2, D.toNat⟩ := by
  unfold preClampDate
  dsimp only
  rw [if_pos hB, mkDate_nextm y m hm1 hm2 D, normDayDown_of_pos _ _ _ hD1,
    normDayUp_eq_self _ _ _ (by omega) (by omega)]

theorem preClamp_nextCarry (y : Int) (m : Nat) (d : Nat) (D : Int)
    (hm1 : 1 ≤ m) (hm2 : m ≤ 12)
    (hB : D < (d : Int)) (hD1 : 1 ≤ D) (hD31 : D ≤ 31)
    (hDdim : (daysInMonth (nextYM y m).1 (nextYM y m).2 : Int) < D) :
    preClampDate D ⟨y, m, d⟩ =
      ⟨(nextYM (nextYM y m).1 (nextYM y m).2).1,
       (nextYM (nextYM y m).1 (nextYM y m).2).2,
       D.toNat - daysInMonth (nextYM y m).1 (nextYM y m).2⟩ := by
  have hv := nextYM_valid y m hm1 hm2
  have hb2 := daysInMonth_bounds (nextYM y m).1 (nextYM y m).2 hv.1 hv.2
  unfold preClampDate
  dsimp only
  rw [if_pos hB, mkDate_nextm y m hm1 hm2 D, normDayDown_of_pos _ _ _ hD1,
    normDayUp_carry _ _ _ hv.1 hv.2 (by omega) (by omega)]

/- ### Case analysis of nextSalaryDate -/

theorem nextSalary_sameMonth (y : Int) (m : Nat) (d : Nat) (D : Int)
    (hm1 : 1 ≤ m) (hm2 : m ≤ 12)
    (hA : ¬ D < (d : Int)) (hD1 : 1 ≤ D) (hDdim : D ≤ daysInMonth y m) :
    nextSalaryDate D ⟨y, m, d⟩ = ⟨y, m, D.toNat⟩ := by
  unfold nextSalaryDate
  dsimp only
  rw [preClamp_sameMonth y m d D hm1 hm2 hA hD1 hDdim]
  rw [if_neg (by dsimp only; omega)]

theorem nextSalary_clamp31 (y : Int) (m : Nat) (d : Nat)
    (hm1 : 1 ≤ m) (hm2 : m ≤ 12) (hd1 : 1 ≤ d) (hd2 : d ≤ daysInMonth y m)
    (hshort : daysInMonth y m < 31) :
    nextSalaryDate 31 ⟨y, m, d⟩ = ⟨y, m, daysInMonth y m⟩ := by
  have hb := daysInMonth_bounds y m hm1 hm2
  unfold nextSalaryDate
  dsimp only
  rw [preClamp_carry y m d 31 hm1 hm2 (by omega) (by omega) (by omega)]
  rw [if_pos (by refine ⟨rfl, ?_⟩; dsimp only; omega)]
  rw [mkDate_nextm y m hm1 hm2 0]
  have hv := nextYM_valid y m hm1 hm2
  rw [normDayDown_zero _ _ hv.1 hv.2, prevYM_nextYM y m hm1 hm2]

theorem nextSalary_carry_no31 (y : Int) (m : Nat) (d : Nat) (D : Int)
    (hm1 : 1 ≤ m) (hm2 : m ≤ 12)
    (hA : ¬ D < (d : Int)) (hDdim : (daysInMonth y m : Int) < D) (hD31 : D ≤ 31)
    (hne : D ≠ 31) :
    nextSalaryDate D ⟨y, m, d⟩ =
      ⟨(nextYM y m).1, (nextYM y m).2, D.toNat - daysInMonth y m⟩ := by
  unfold nextSalaryDate
  dsimp only
  rw [preClamp_carry y m d D hm1 hm2 hA hDdim hD31]
  rw [if_neg (by intro hc; exact hne hc.1)]

theorem nextSalary_nextMonth (y : Int) (m : Nat) (d : Nat) (D : Int)
    (hm1 : 1 ≤ m) (hm2 : m ≤ 12) (hd2 : d ≤ daysInMonth y m)
    (hB : D < (d : Int)) (hD1 : 1 ≤ D)
    (hDdim : D ≤ daysInMonth (nextYM y m).1 (nextYM y m).2) :
    nextSalaryDate D ⟨y, m, d⟩ = ⟨(nextYM y m).1, (nextYM y m).2, D.toNat⟩ := by
  have hb := daysInMonth_bounds y m hm1 hm2
  unfold nextSalaryDate
  dsimp only
  rw [preClamp_nextMonth y m d D hm1 hm2 hB hD1 hDdim]
  rw [if_neg (by intro hc; omega)]

theorem nextSalary_nextCarry (y : Int) (m : Nat) (d : Nat) (D : Int)
    (hm1 : 1 ≤ m) (hm2 : m ≤ 12) (hd2 : d ≤ daysInMonth y m)
    (hB : D < (d : Int)) (hD1 : 1 ≤ D)
    (hDdim : (daysInMonth (nextYM y m).1 (nextYM y m).2 : Int) < D) :
    nextSalaryDate D ⟨y, m, d⟩ =
      ⟨(nextYM (nextYM y m).1 (nextYM y m).2).1,
       (nextYM (nextYM y m).1 (nextYM y m).2).2,
       D.toNat - daysInMonth (nextYM y m).1 (nextYM y m).2⟩ := by
  have hb := daysInMonth_bounds y m hm1 hm2
  unfold nextSalaryDate
  dsimp only
  rw [preClamp_nextCarry y m d D hm1 hm2 hB hD1 (by omega) hDdim]
  rw [if_neg (by intro hc; omega)]

/- ### Evaluation of calculateDaysRemaining through the day difference -/

theorem ceilDiv_day (a b t : Int) (ht0 : 0 ≤ t) (ht1 : t < msPerDay) :
    ceilDiv (a * msPerDay - (b * msPerDay + t)) msPerDay = a - b := by
  unfold ceilDiv msPerDay
  unfold msPerDay at ht1
  omega

theorem calculateDaysRemaining_eq (D : Int) (today : CivilDate) (t : Int)
    (hD1 : 1 ≤ D) (hD2 : D ≤ 31) (ht0 : 0 ≤ t) (ht1 : t < msPerDay)
    (hpos : 0 ≤ dayNumber (nextSalaryDate D today) - dayNumber today) :
    calculateDaysRemaining D today t
      = some (dayNumber (nextSalaryDate D today) - dayNumber today) := by
  unfold calculateDaysRemaining
  rw [if_neg (by omega)]
  dsimp only
  rw [ceilDiv_day _ _ _ ht0 ht1]
  rw [if_pos hpos]

theorem nextSalary_delta_nonneg (y : Int) (m d : Nat) (D : Int)
    (hm1 : 1 ≤ m) (hm2 : m ≤ 12) (hd1 : 1 ≤ d) (hd2 : d ≤ daysInMonth y m)
    (hD1 : 1 ≤ D) (hD2 : D ≤ 31) :
    0 ≤ dayNumber (nextSalaryDate D ⟨y, m, d⟩) - dayNumber ⟨y, m, d⟩ := by
  have hb := daysInMonth_bounds y m hm1 hm2
  have hv := nextYM_valid y m hm1 hm2
  have hb2 := daysInMonth_bounds (nextYM y m).1 (nextYM y m).2 hv.1 hv.2
  by_cases hA : D < (d : Int)
  · by_cases hBB : D ≤ (daysInMonth (nextYM y m).1 (nextYM y m).2 : Int)
    · rw [nextSalary_nextMonth y m d D hm1 hm2 hd2 hA hD1 hBB]
      have e := dayNumber_next y m hm1 hm2 D.toNat
      have e2 := dayNumber_sub_same y m (daysInMonth y m) d
      omega
    · push_neg at hBB
      rw [nextSalary_nextCarry y m d D hm1 hm2 hd2 hA hD1 hBB]
      have e := dayNumber_next (nextYM y m).1 (nextYM y m).2 hv.1 hv.2
        (D.toNat - daysInMonth (nextYM y m).1 (nextYM y m).2)
      have e2 := dayNumber_next y m hm1 hm2
        (daysInMonth (nextYM y m).1 (nextYM y m).2)
      have e3 := dayNumber_sub_same y m (daysInMonth y m) d
      omega
  · by_cases hA1 : D ≤ (daysInMonth y m : Int)
    · rw [nextSalary_sameMonth y m d D hm1 hm2 hA hD1 hA1]
      have e := dayNumber_sub_same y m D.toNat d
      omega
    · push_neg at hA1
      by_cases h31 : D = 31
      · subst h31
        rw [nextSalary_clamp31 y m d hm1 hm2 hd1 hd2 (by omega)]
        have e := dayNumber_sub_same y m (daysInMonth y m) d
        omega
      · rw [nextSalary_carry_no31 y m d D hm1 hm2 hA hA1 hD2 h31]
        have e := dayNumber_next y m hm1 hm2 (D.toNat - daysInMonth y m)
        have e2 := dayNumber_sub_same y m (daysInMonth y m) d
        omega

/- ### Claim theorems: reminder calculator -/

/-- C1: for salary day D = 31 and every valid current date whose month does
not have 31 days, the computed nextSalaryDate is the last day of that
(current, intended) month rather than a date spilled into the following
month, and daysRemaining counts the days to that last day. -/
theorem claim_C1_day31_clamps_to_last_day_of_short_month
    (y : Int) (m d : Nat) (t : Int)
    (hv : (⟨y, m, d⟩ : CivilDate).isValid)
    (hshort : daysInMonth y m < 31) (ht0 : 0 ≤ t) (ht1 : t < msPerDay) :
    nextSalaryDate 31 ⟨y, m, d⟩ = ⟨y, m, daysInMonth y m⟩ ∧
    calculateDaysRemaining 31 ⟨y, m, d⟩ t = some ((daysInMonth y m : Int) - d) := by
  have hv' : 1 ≤ m ∧ m ≤ 12 ∧ 1 ≤ d ∧ d ≤ daysInMonth y m := hv
  obtain ⟨hm1, hm2, hd1, hd2⟩ := hv'
  have hnext := nextSalary_clamp31 y m d hm1 hm2 hd1 hd2 hshort
  have e := dayNumber_sub_same y m (daysInMonth y m) d
  have hp : 0 ≤ dayNumber (nextSalaryDate 31 ⟨y, m, d⟩) - dayNumber ⟨y, m, d⟩ := by
    rw [hnext]
    omega
  refine ⟨hnext, ?_⟩
  rw [calculateDaysRemaining_eq 31 _ t (by omega) (by omega) ht0 ht1 hp, hnext]
  rw [e]

/-- C1 witness: D = 31 with today = 2025-02-20 yields nextDate 2025-02-28 and
daysRemaining 8, the example of the specification. -/
theorem claim_C1_witness :
    nextSalaryDate 31 ⟨2025, 2, 20⟩ = ⟨2025, 2, 28⟩ ∧
    calculateDaysRemaining 31 ⟨2025, 2, 20⟩ 0 = some 8 := by
  have h := claim_C1_day31_clamps_to_last_day_of_short_month 2025 2 20 0
    (by decide) (by decide) (by decide) (by decide)
  have e : daysInMonth 2025 2 = 28 := by decide
  rw [e] at h
  refine ⟨h.1, ?_⟩
  rw [h.2]
  norm_num

/-- C5: the reminder calculator never returns a negative daysRemaining: any
returned value is nonnegative, and on every valid salary day and current
date the computed internal day difference is itself nonnegative, so the
negative branch (which the source maps to null, line 50) is never taken;
the condition of the second half of the claim never occurs. -/
theorem claim_C5_never_negative_daysRemaining :
    (∀ (D : Int) (today : CivilDate) (t n : Int),
        calculateDaysRemaining D today t = some n → 0 ≤ n) ∧
    (∀ (D : Int) (y : Int) (m d : Nat) (t : Int),
        1 ≤ D → D ≤ 31 → (⟨y, m, d⟩ : CivilDate).isValid →
        0 ≤ t → t < msPerDay →
        calculateDaysRemaining D ⟨y, m, d⟩ t
          = some (dayNumber (nextSalaryDate D ⟨y, m, d⟩) - dayNumber ⟨y, m, d⟩) ∧
        0 ≤ dayNumber (nextSalaryDate D ⟨y, m, d⟩) - dayNumber ⟨y, m, d⟩) := by
  constructor
  · intro D today t n h
    unfold calculateDaysRemaining at h
    split at h
    · exact absurd h (by simp)
    · dsimp only at h
      split at h
      · rename_i hpos
        obtain rfl : _ = n := Option.some.injEq _ _ ▸ h
        omega
      · exact absurd h (by simp)
  · intro D y m d t hD1 hD2 hv ht0 ht1
    have hv' : 1 ≤ m ∧ m ≤ 12 ∧ 1 ≤ d ∧ d ≤ daysInMonth y m := hv
    obtain ⟨hm1, hm2, hd1, hd2⟩ := hv'
    have hp := nextSalary_delta_nonneg y m d D hm1 hm2 hd1 hd2 hD1 hD2
    exact ⟨calculateDaysRemaining_eq D _ t hD1 hD2 ht0 ht1 hp, hp⟩

/-- C5 witness: D = 15 with today = 2025-01-20 (a case where the candidate
moves to the following month) returns a nonnegative value, namely 26, the
example of the specification. -/
theorem claim_C5_witness :
    calculateDaysRemaining 15 ⟨2025, 1, 20⟩ 0
      = some (dayNumber (nextSalaryDate 15 ⟨2025, 1, 20⟩) - dayNumber ⟨2025, 1, 20⟩) ∧
    0 ≤ dayNumber (nextSalaryDate 15 ⟨2025, 1, 20⟩) - dayNumber ⟨2025, 1, 20⟩ :=
  claim_C5_never_negative_daysRemaining.2 15 2025 1 20 0
    (by norm_num) (by norm_num) (by decide) (by norm_num) (by decide)

/-- C6 counterexample: with today = 2025-04-30 and D = 31 (which is the
current day-of-month plus one and lies in [1,31]), the calculator returns
daysRemaining 0, not 1: the day-31 clamp retargets the candidate to the
last day of April, which is today. -/
theorem claim_C6_counterexample :
    calculateDaysRemaining 31 ⟨2025, 4, 30⟩ 0 ≠ some 1 ∧
    calculateDaysRemaining 31 ⟨2025, 4, 30⟩ 0 = some 0 := by
  have hnext := nextSalary_clamp31 2025 4 30 (by norm_num) (by norm_num)
    (by norm_num) (by decide) (by decide)
  have e : daysInMonth 2025 4 = 30 := by decide
  rw [e] at hnext
  have hp : 0 ≤ dayNumber (nextSalaryDate 31 ⟨2025, 4, 30⟩) - dayNumber ⟨2025, 4, 30⟩ := by
    rw [hnext]
    omega
  have hc := calculateDaysRemaining_eq 31 ⟨2025, 4, 30⟩ 0 (by norm_num) (by norm_num)
    (by norm_num) (by decide) hp
  rw [hnext, sub_self] at hc
  exact ⟨by rw [hc]; simp, hc⟩

/-- C6 (amended): for every valid current date, D equal to the current
day-of-month gives daysRemaining 0, and D equal to the current day-of-month
plus one (valid, in [1,31]) gives daysRemaining 1 except when D = 31 and the
current month has only 30 days; in that excluded case the day-31 clamp
retargets to the last day of the current month, which is today, and the
result is 0. -/
theorem claim_C6_due_today_and_tomorrow
    (y : Int) (m d : Nat) (t : Int) (D : Int)
    (hv : (⟨y, m, d⟩ : CivilDate).isValid) (ht0 : 0 ≤ t) (ht1 : t < msPerDay) :
    (D = (d : Int) → calculateDaysRemaining D ⟨y, m, d⟩ t = some 0) ∧
    (D = (d : Int) + 1 → D ≤ 31 → ¬(D = 31 ∧ daysInMonth y m = 30) →
      calculateDaysRemaining D ⟨y, m, d⟩ t = some 1) := by
  have hv' : 1 ≤ m ∧ m ≤ 12 ∧ 1 ≤ d ∧ d ≤ daysInMonth y m := hv
  obtain ⟨hm1, hm2, hd1, hd2⟩ := hv'
  have hb := daysInMonth_bounds y m hm1 hm2
  constructor
  · intro hD
    subst hD
    have hnext := nextSalary_sameMonth y m d d hm1 hm2 (by omega) (by omega) (by omega)
    have e := dayNumber_sub_same y m (d : Int).toNat d
    have hΔ : dayNumber (nextSalaryDate (d : Int) ⟨y, m, d⟩) - dayNumber ⟨y, m, d⟩ = 0 := by
      rw [hnext]
      omega
    rw [calculateDaysRemaining_eq _ _ t (by omega) (by omega) ht0 ht1 (by omega), hΔ]
  · intro hD hD31 hexcl
    have hΔ : dayNumber (nextSalaryDate D ⟨y, m, d⟩) - dayNumber ⟨y, m, d⟩ = 1 := by
      by_cases hin : D ≤ (daysInMonth y m : Int)
      · have hnext := nextSalary_sameMonth y m d D hm1 hm2 (by omega) (by omega) hin
        have e := dayNumber_sub_same y m D.toNat d
        rw [hnext]
        omega
      · push_neg at hin
        have hdim : (d : Int) = (daysInMonth y m : Int) := by omega
        have hne : D ≠ 31 := by
          intro h31
          exact hexcl ⟨h31, by omega⟩
        have hnext := nextSalary_carry_no31 y m d D hm1 hm2 (by omega) hin hD31 hne
        have e := dayNumber_next y m hm1 hm2 (D.toNat - daysInMonth y m)
        have e2 := dayNumber_sub_same y m (daysInMonth y m) d
        rw [hnext]
        omega
    rw [calculateDaysRemaining_eq _ _ t (by omega) (by omega) ht0 ht1 (by omega), hΔ]

/-- C6 witness: today = 2025-01-15: D = 15 gives 0 (due today) and D = 16
gives 1 (due tomorrow). -/
theorem claim_C6_witness :
    calculateDaysRemaining 15 ⟨2025, 1, 15⟩ 0 = some 0 ∧
    calculateDaysRemaining 16 ⟨2025, 1, 15⟩ 0 = some 1 := by
  have h1 := (claim_C6_due_today_and_tomorrow 2025 1 15 0 15
    (by decide) (by norm_num) (by decide)).1 (by norm_num)
  have h2 := (claim_C6_due_today_and_tomorrow 2025 1 15 0 16
    (by decide) (by norm_num) (by decide)).2 (by norm_num) (by norm_num)
    (by norm_num)
  exact ⟨h1, h2⟩

/- ### Token model: jsonwebtoken library and the utils auth functions -/

/-- The payload the backend signs: { userId, email }
(src/backend/src/utils, generateToken). -/
structure JwtPayload where
  userId : String
  email : String
deriving DecidableEq, Repr

/-- A structurally well-formed JWT: payload claims, issued-at and expiry
times (seconds), and the signature segment. -/
structure SignedToken where
  userId : String
  email : String
  iat : Int
  exp : Int
  sig : String
deriving DecidableEq, Repr

/-- Model of the HMAC signature the jsonwebtoken library computes over the
encoded header/payload with the secret: a deterministic function of the
secret and the signed fields, injective in each field by construction. -/
def jwtSignature (secret userId email : String) (iat exp : Int) : String :=
  secret ++ "#" ++ userId ++ "#" ++ email ++ "#" ++ toString iat ++ "#" ++ toString exp

/-- Model of jwt.sign(payload, secret, { expiresIn }): embeds the claims and
an expiry of now + expiresIn seconds, and signs. -/
def jwtSign (secret : String) (p : JwtPayload) (now expiresIn : Int) : SignedToken :=
  { userId := p.userId
    email := p.email
    iat := now
    exp := now + expiresIn
    sig := jwtSignature secret p.userId p.email now (now + expiresIn) }

/-- A token string as jwt.verify sees it: either not decodable at all
(malformed), or decodable into a well-formed token whose signature and
expiry remain to be checked. -/
inductive Token where
  | malformed (raw : String)
  | wellFormed (t : SignedToken)
deriving DecidableEq, Repr

/-- Model of jwt.verify(token, secret) at clock time now (seconds): throws
(Except.error) on a malformed token, a bad signature, or an expired token;
otherwise returns the decoded payload object. -/
def jwtVerify (secret : String) (now : Int) (tok : Token) : Except String JwtPayload :=
  match tok with
  | .malformed _ => .error "jwt malformed"
  | .wellFormed t =>
    if t.sig ≠ jwtSignature secret t.userId t.email t.iat t.exp then
      .error "invalid signature"
    else if t.exp ≤ now then
      .error "jwt expired"
    else
      .ok ⟨t.userId, t.email⟩

/-- getJWTSecret (src/backend/src/utils, lines 112-118): throws when
JWT_SECRET is unset (or empty, which is falsy in the source check). -/
def getJWTSecret (jwtSecretEnv : Option String) : Except String String :=
  match jwtSecretEnv with
  | none => .error "JWT_SECRET environment variable is required. Please set it in your .env file."
  | some s =>
    if s = "" then
      .error "JWT_SECRET environment variable is required. Please set it in your .env file."
    else .ok s

/-- generateToken (src/backend/src/utils, lines 148-154): signs
{ userId, email } with the configured secret and expiry (default 7 days);
propagates the missing-secret exception. expiresIn is the configured
JWT_EXPIRES_IN duration in seconds. -/
def generateToken (jwtSecretEnv : Option String) (expiresIn : Int)
    (userId email : String) (now : Int) : Except String SignedToken := do
  let secret ← getJWTSecret jwtSecretEnv
  pure (jwtSign secret ⟨userId, email⟩ now expiresIn)

/-- verifyToken (src/backend/src/utils, lines 161-171): runs jwt.verify in a
try/catch and returns null (none) on any exception, including the
missing-secret one; on success the decoded object always carries userId and
email here, so the property check of line 164 passes and the payload is
returned. -/
def verifyToken (jwtSecretEnv : Option String) (now : Int) (tok : Token) :
    Option JwtPayload :=
  match (do
    let secret ← getJWTSecret jwtSecretEnv
    jwtVerify secret now tok : Except String JwtPayload) with
  | .ok p => some p
  | .error _ => none

/-- Replace the character at position i of a string (used to state the
single-character tampering property over the signature segment). -/
def setCharAt (s : String) (i : Nat) (c : Char) : String :=
  String.mk (s.toList.set i c)

/-- Tamper the signature segment of a well-formed token. -/
def tamperSig (t : SignedToken) (i : Nat) (c : Char) : SignedToken :=
  { t with sig := setCharAt t.sig i c }

theorem generateToken_ok (jwtSecretEnv : Option String) (secret : String)
    (expiresIn : Int) (u e : String) (now : Int)
    (hsec : getJWTSecret jwtSecretEnv = .ok secret) :
    generateToken jwtSecretEnv expiresIn u e now
      = .ok (jwtSign secret ⟨u, e⟩ now expiresIn) := by
  unfold generateToken
  rw [hsec]
  rfl

theorem verifyToken_ok_secret (jwtSecretEnv : Option String) (secret : String)
    (now : Int) (tok : Token) (hsec : getJWTSecret jwtSecretEnv = .ok secret) :
    verifyToken jwtSecretEnv now tok
      = match jwtVerify secret now tok with
        | .ok p => some p
        | .error _ => none := by
  unfold verifyToken
  rw [hsec]
  rfl

/- ### Claim theorems: token issue/verify -/

/-- C2: verifying a token produced by generateToken(u, e), at any time
strictly before the configured expiry, returns exactly the payload
{ userId := u, email := e }. -/
theorem claim_C2_verify_after_issue_roundtrip
    (jwtSecretEnv : Option String) (secret : String) (expiresIn : Int)
    (u e : String) (now verifyAt : Int) (tok : SignedToken)
    (hsec : getJWTSecret jwtSecretEnv = .ok secret)
    (hgen : generateToken jwtSecretEnv expiresIn u e now = .ok tok)
    (hbefore : verifyAt < now + expiresIn) :
    verifyToken jwtSecretEnv verifyAt (.wellFormed tok) = some ⟨u, e⟩ := by
  rw [generateToken_ok jwtSecretEnv secret expiresIn u e now hsec] at hgen
  injection hgen with h
  subst h
  rw [verifyToken_ok_secret jwtSecretEnv secret verifyAt _ hsec]
  unfold jwtVerify jwtSign
  dsimp only
  rw [if_neg (by simp), if_neg (by omega)]

/-- C2 witness: a concrete issue/verify round trip with secret "s0",
expiry 604800 seconds (7 days), issued at time 0 and verified at time 1. -/
theorem claim_C2_witness :
    verifyToken (some "s0") 1
        (.wellFormed (jwtSign "s0" ⟨"user-1", "a@b.c"⟩ 0 604800))
      = some ⟨"user-1", "a@b.c"⟩ :=
  claim_C2_verify_after_issue_roundtrip (some "s0") "s0" 604800 "user-1" "a@b.c"
    0 1 _ rfl rfl (by norm_num)

/-- C4: verifyToken returns the explicit invalid result (none, modelling
null) and no exception for: any well-formed token past its expiry; any
token obtained from a generated token by changing a single character of its
signature segment; and any malformed token. Totality of verifyToken (it
returns an Option rather than raising) models the catch-all of lines
168-170. -/
theorem claim_C4_invalid_or_expired_token_yields_null
    (jwtSecretEnv : Option String) (secret : String) (expiresIn : Int)
    (u e : String) (now : Int) (tok : SignedToken)
    (hsec : getJWTSecret jwtSecretEnv = .ok secret)
    (hgen : generateToken jwtSecretEnv expiresIn u e now = .ok tok) :
    (∀ (t' : Int) (anyTok : SignedToken), anyTok.exp ≤ t' →
        verifyToken jwtSecretEnv t' (.wellFormed anyTok) = none) ∧
    (∀ (i : Nat) (c c0 : Char) (t' : Int),
        tok.sig.toList.get? i = some c0 → c ≠ c0 →
        verifyToken jwtSecretEnv t' (.wellFormed (tamperSig tok i c)) = none) ∧
    (∀ (raw : String) (t' : Int),
        verifyToken jwtSecretEnv t' (.malformed raw) = none) := by
  rw [generateToken_ok jwtSecretEnv secret expiresIn u e now hsec] at hgen
  injection hgen with h
  subst h
  refine ⟨?_, ?_, ?_⟩
  · intro t' anyTok hexp
    rw [verifyToken_ok_secret jwtSecretEnv secret t' _ hsec]
    unfold jwtVerify
    dsimp only
    by_cases hs : anyTok.sig = jwtSignature secret anyTok.userId anyTok.email anyTok.iat anyTok.exp
    · rw [if_neg (by simp [hs]), if_pos hexp]
    · rw [if_pos hs]
  · intro i c c0 t' hget hne
    rw [verifyToken_ok_secret jwtSecretEnv secret t' _ hsec]
    unfold jwtVerify tamperSig
    dsimp only
    rw [if_pos ?hne]
    case hne =>
      intro heq
      have hlist : (jwtSign secret ⟨u, e⟩ now expiresIn).sig.toList.set i c
          = (jwtSign secret ⟨u, e⟩ now expiresIn).sig.toList := by
        have := congrArg String.toList heq
        simpa [setCharAt] using this
      have hi : i < (jwtSign secret ⟨u, e⟩ now expiresIn).sig.toList.length := by
        by_contra hbig
        push_neg at hbig
        rw [List.get?_eq_none.mpr hbig] at hget
        exact Option.noConfusion hget
      have h1 : ((jwtSign secret ⟨u, e⟩ now expiresIn).sig.toList.set i c).get? i
          = some c := by
        rw [List.get?_eq_get (by simpa using hi)]
        simp [List.get_set]
      rw [hlist, hget] at h1
      exact hne (Option.some.inj h1).symm
  · intro raw t'
    rw [verifyToken_ok_secret jwtSecretEnv secret t' _ hsec]
    rfl

/-- C4 witness: with secret "s0" and a token issued at time 0 with expiry
604800 s, verification at the expiry instant returns none; flipping the
first signature character returns none; a malformed token returns none. -/
theorem claim_C4_witness :
    verifyToken (some "s0") 604800
        (.wellFormed (jwtSign "s0" ⟨"user-1", "a@b.c"⟩ 0 604800)) = none ∧
    verifyToken (some "s0") 1
        (.wellFormed (tamperSig (jwtSign "s0" ⟨"user-1", "a@b.c"⟩ 0 604800) 0 'X'))
      = none ∧
    verifyToken (some "s0") 1 (.malformed "not-a-jwt") = none := by
  have h := claim_C4_invalid_or_expired_token_yields_null (some "s0") "s0" 604800
    "user-1" "a@b.c" 0 _ rfl rfl
  exact ⟨h.1 604800 _ (by norm_num [jwtSign]),
    h.2.1 0 'X' 's' 1 (by decide) (by decide),
    h.2.2 "not-a-jwt" 1⟩

/- ### Authentication middleware (src/backend/src/middleware/auth.ts) and
the GET /auth/me token extraction -/

/-- Outcome of the authenticate middleware: either an immediate JSON
response (status, success flag, error string) or proceeding to the handler
with the decoded identity attached to the request. -/
inductive AuthOutcome where
  | respond (status : Nat) (success : Bool) (error : String)
  | proceed (userId email : String)
deriving DecidableEq, Repr

/-- The JavaScript String.prototype.startsWith check, as a character-list
prefix test. -/
def strStartsWith (s pre : String) : Bool :=
  pre.toList.isPrefixOf s.toList

/-- Token extraction of authenticate (auth.ts lines 30-39): if the
Authorization header is present and starts with the Bearer prefix, take the
substring after it; otherwise fall back to the authToken cookie. -/
def extractToken (authHeader cookieAuthToken : Option String) : Option String :=
  match authHeader with
  | some h => if strStartsWith h "Bearer " then some (h.drop 7) else cookieAuthToken
  | none => cookieAuthToken

/-- Token extraction of the GET /auth/me handler (auth routes, lines
260-272): Bearer header first; the cookie only when the header produced no
truthy token and the cookie is truthy. -/
def extractTokenMe (authHeader cookieAuthToken : Option String) : Option String :=
  let t1 : Option String :=
    match authHeader with
    | some h => if strStartsWith h "Bearer " then some (h.drop 7) else none
    | none => none
  if (t1 = none ∨ t1 = some "") ∧
      ¬ (cookieAuthToken = none ∨ cookieAuthToken = some "") then
    cookieAuthToken
  else t1

/-- The authenticate middleware (auth.ts lines 24-83), parameterized by the
token verification function (the imported verifyToken, as a function from
the raw token string to an optional payload). The two distinct error
strings are the literals of lines 44 and 60. -/
def authenticate (verify : String → Option JwtPayload)
    (authHeader cookieAuthToken : Option String) : AuthOutcome :=
  match extractToken authHeader cookieAuthToken with
  | none => .respond 401 false "No token provided. Please login first."
  | some tok =>
    if tok = "" then .respond 401 false "No token provided. Please login first."
    else
      match verify tok with
      | none => .respond 401 false "Invalid or expired token. Please login again."
      | some p => .proceed p.userId p.email

/- ### Claim theorems: middleware -/

/-- C3 counterexample: with no token at all, the middleware answers with the
error string of line 44; with a present but invalid (e.g. undecodable or
expired) cookie token, it answers with the distinct error string of line 60.
The two responses differ, so the caller can distinguish the absent-token
case from the invalid-token case. The verification function is the verifyToken
model with secret "s0" at time 0, under which the cookie string is an
undecodable token. -/
theorem claim_C3_counterexample :
    authenticate (fun s => verifyToken (some "s0") 0 (.malformed s)) none none
      = .respond 401 false "No token provided. Please login first." ∧
    authenticate (fun s => verifyToken (some "s0") 0 (.malformed s)) none
        (some "expired-or-garbage")
      = .respond 401 false "Invalid or expired token. Please login again." ∧
    authenticate (fun s => verifyToken (some "s0") 0 (.malformed s)) none none
      ≠ authenticate (fun s => verifyToken (some "s0") 0 (.malformed s)) none
          (some "expired-or-garbage") := by
  refine ⟨rfl, rfl, ?_⟩
  have e1 : authenticate (fun s => verifyToken (some "s0") 0 (.malformed s)) none none
      = .respond 401 false "No token provided. Please login first." := rfl
  have e2 : authenticate (fun s => verifyToken (some "s0") 0 (.malformed s)) none
        (some "expired-or-garbage")
      = .respond 401 false "Invalid or expired token. Please login again." := rfl
  rw [e1, e2]
  simp only [ne_eq, AuthOutcome.respond.injEq]
  intro h
  exact absurd h.2.2 (by decide)

/-- C3 (amended): a request with no (or an empty) extracted token and a
request with an invalid extracted token both receive a 401 response with
success = false — the same unauthenticated status — but the error messages
differ (line 44 vs line 60), so the transcript does distinguish the two
cases. -/
theorem claim_C3_absent_and_invalid_both_401_but_distinguishable
    (verify : String → Option JwtPayload) (authHeader cookieAuthToken : Option String) :
    (extractToken authHeader cookieAuthToken = none ∨
        extractToken authHeader cookieAuthToken = some "" →
      authenticate verify authHeader cookieAuthToken
        = .respond 401 false "No token provided. Please login first.") ∧
    (∀ s, extractToken authHeader cookieAuthToken = some s → s ≠ "" →
      verify s = none →
      authenticate verify authHeader cookieAuthToken
        = .respond 401 false "Invalid or expired token. Please login again.") ∧
    "No token provided. Please login first."
      ≠ "Invalid or expired token. Please login again." := by
  refine ⟨?_, ?_, by decide⟩
  · intro h
    unfold authenticate
    rcases h with h | h <;> rw [h]
    simp
  · intro s hs hne hv
    unfold authenticate
    rw [hs]
    simp only [if_neg hne, hv]

/-- C3 witness: the amended statement applied to a request with no token and
to one with an invalid cookie token. -/
theorem claim_C3_witness :
    authenticate (fun _ => none) none none
      = .respond 401 false "No token provided. Please login first." ∧
    authenticate (fun _ => none) none (some "bad")
      = .respond 401 false "Invalid or expired token. Please login again." := by
  have h1 := (claim_C3_absent_and_invalid_both_401_but_distinguishable
    (fun _ => none) none none).1 (Or.inl rfl)
  have h2 := (claim_C3_absent_and_invalid_both_401_but_distinguishable
    (fun _ => none) none (some "bad")).2.1 "bad" rfl (by decide) rfl
  exact ⟨h1, h2⟩

/-- C7 counterexample: a request carrying both an Authorization header
("Token abc", present but without the Bearer prefix) and a session cookie:
both the middleware extraction and the /auth/me extraction use the cookie
token, so the header does not always win when present. -/
theorem claim_C7_counterexample :
    (some "Token abc" : Option String) ≠ none ∧
    extractToken (some "Token abc") (some "cookie-token") = some "cookie-token" ∧
    extractTokenMe (some "Token abc") (some "cookie-token") = some "cookie-token" := by
  refine ⟨by decide, ?_, ?_⟩ <;> decide

/-- C7 (amended): per request exactly one source yields the used token: a
present Authorization header starting with "Bearer " always wins and the
cookie is ignored; when the header is absent the cookie is used; but when
the header is present without the Bearer prefix the middleware falls back
to the cookie, so the header does not win merely by being present. -/
theorem claim_C7_bearer_header_precedence
    (authHeader cookieAuthToken : Option String) :
    (∀ h, authHeader = some h → strStartsWith h "Bearer " = true →
      extractToken authHeader cookieAuthToken = some (h.drop 7)) ∧
    (authHeader = none →
      extractToken authHeader cookieAuthToken = cookieAuthToken) ∧
    (∀ h, authHeader = some h → ¬ strStartsWith h "Bearer " = true →
      extractToken authHeader cookieAuthToken = cookieAuthToken) := by
  refine ⟨?_, ?_, ?_⟩
  · intro h hh hb
    unfold extractToken
    rw [hh]
    simp [hb]
  · intro hh
    rw [hh]
    rfl
  · intro h hh hb
    unfold extractToken
    rw [hh]
    simp [hb]

/-- C7 witness: with both a Bearer header and a cookie present, the header
token is used and the cookie ignored; with no header, the cookie is used. -/
theorem claim_C7_witness :
    extractToken (some "Bearer tok-h") (some "tok-c") = some "tok-h" ∧
    extractToken none (some "tok-c") = some "tok-c" := by
  have h1 := (claim_C7_bearer_header_precedence (some "Bearer tok-h")
    (some "tok-c")).1 "Bearer tok-h" rfl (by decide)
  have h2 := (claim_C7_bearer_header_precedence none (some "tok-c")).2.1 rfl
  constructor
  · rw [h1]
    decide
  · exact h2

/- ### Salary reminder routes (backend salary router) -/

/-- A row of the salary_reminders table, as the handlers see it. The stored
value is a rational because the route validation admits any JSON number. -/
structure SalaryRow where
  id : String
  userId : String
  salaryDate : Rat
deriving DecidableEq, Repr

/-- A JSON response of the salary routes: HTTP status, success flag and
message. -/
structure SalaryResp where
  status : Nat
  success : Bool
  message : String
deriving DecidableEq, Repr

/-- The DELETE /salary handler body for an authenticated user (salary
router, lines 201-246): one DELETE ... WHERE userId = ? statement;
affectedRows counts the removed rows; the response is always success with a
message chosen by whether anything was deleted. -/
def deleteSalaryHandler (userId : String) (store : List SalaryRow) :
    SalaryResp × List SalaryRow :=
  let affectedRows := (store.filter (fun r => r.userId == userId)).length
  let store' := store.filter (fun r => ! (r.userId == userId))
  let deleted := 0 < affectedRows
  ({ status := 200
     success := true
     message :=
       if deleted then "Salary reminder deleted successfully"
       else "Salary reminder not found (already deleted or never existed)" },
   store')

/-- A JSON value, as far as the salary-date validation inspects one. -/
inductive JsonVal where
  | jnull
  | jbool (b : Bool)
  | jnum (q : Rat)
  | jstr (s : String)
deriving DecidableEq, Repr

/-- JavaScript truthiness of a JSON value. -/
def jsTruthy : JsonVal → Bool
  | .jnull => false
  | .jbool b => b
  | .jnum q => q != 0
  | .jstr s => s != ""

/-- The salaryDate validation of the POST /salary handler (salary router,
lines 85-102): reject a missing/falsy or non-number value with the first
400 message, reject a number outside [1,31] with the second 400 message,
and otherwise accept the number as is; none models an absent field. -/
def validateSalaryDate (salaryDate : Option JsonVal) : Except (Nat × String) Rat :=
  match salaryDate with
  | none => .error (400, "Salary date is required and must be a number (day of month, 1-31)")
  | some v =>
    if ¬ jsTruthy v then
      .error (400, "Salary date is required and must be a number (day of month, 1-31)")
    else
      match v with
      | .jnum q =>
        if q < 1 ∨ q > 31 then .error (400, "Salary date must be between 1 and 31")
        else .ok q
      | _ => .error (400, "Salary date is required and must be a number (day of month, 1-31)")

/-- The POST /salary handler body for an authenticated user (salary router,
lines 74-194): validate, then update the existing row for the user if one
exists, else insert a new row with a fresh id. -/
def postSalaryHandler (userId : String) (salaryDate : Option JsonVal)
    (freshId : String) (store : List SalaryRow) : SalaryResp × List SalaryRow :=
  match validateSalaryDate salaryDate with
  | .error (st, msg) => ({ status := st, success := false, message := msg }, store)
  | .ok q =>
    if 0 < (store.filter (fun r => r.userId == userId)).length then
      ({ status := 200, success := true, message := "Salary reminder updated successfully" },
       store.map (fun r => if r.userId == userId then { r with salaryDate := q } else r))
    else
      ({ status := 201, success := true, message := "Salary reminder created successfully" },
       store ++ [⟨freshId, userId, q⟩])

/- ### Claim theorems: salary routes -/

/-- C9: for every authenticated user and store state, DELETE /salary
responds 200 with success = true, whether or not a reminder row existed;
the message distinguishes the deleted case from the already-absent case;
deleting a non-existent reminder is never an error. -/
theorem claim_C9_delete_salary_idempotent_success
    (userId : String) (store : List SalaryRow) :
    (deleteSalaryHandler userId store).1.status = 200 ∧
    (deleteSalaryHandler userId store).1.success = true ∧
    ((deleteSalaryHandler userId store).1.message
        = "Salary reminder deleted successfully"
      ↔ ∃ r ∈ store, r.userId = userId) ∧
    ((deleteSalaryHandler userId store).1.message
        = "Salary reminder not found (already deleted or never existed)"
      ↔ ¬ ∃ r ∈ store, r.userId = userId) := by
  have hmem : 0 < (store.filter (fun r => r.userId == userId)).length
      ↔ ∃ r ∈ store, r.userId = userId := by
    rw [List.length_pos]
    constructor
    · intro hne
      obtain ⟨r, hr⟩ := List.exists_mem_of_ne_nil _ hne
      have := List.mem_filter.mp hr
      exact ⟨r, this.1, by simpa using this.2⟩
    · rintro ⟨r, hr, hu⟩ hnil
      have : r ∈ store.filter (fun r => r.userId == userId) :=
        List.mem_filter.mpr ⟨hr, by simpa using hu⟩
      simp [hnil] at this
  unfold deleteSalaryHandler
  dsimp only
  by_cases hex : ∃ r ∈ store, r.userId = userId
  · rw [if_pos (hmem.mpr hex)]
    refine ⟨rfl, rfl, by simpa using hex, ?_⟩
    constructor
    · intro h
      exact absurd h (by decide)
    · intro h
      exact absurd hex h
  · rw [if_neg (fun hc => hex (hmem.mp hc))]
    refine ⟨rfl, rfl, ?_, by simpa using hex⟩
    constructor
    · intro h
      exact absurd h (by decide)
    · intro h
      exact absurd h hex

/-- C10: the POST /salary validation checks only truthiness, number-ness
and the range [1,31]; it never checks integrality. A number is accepted
exactly when it lies in [1,31]; in particular 15.5 passes validation and is
handed to the store as the stored reminder value. -/
theorem claim_C10_no_integrality_check :
    (∀ q : Rat, validateSalaryDate (some (.jnum q)) = .ok q ↔ 1 ≤ q ∧ q ≤ 31) ∧
    validateSalaryDate (some (.jnum (31 / 2))) = .ok (31 / 2) ∧
    ((31 / 2 : Rat).den ≠ 1) ∧
    (postSalaryHandler "u1" (some (.jnum (31 / 2))) "id1" []).2
      = [⟨"id1", "u1", 31 / 2⟩] ∧
    (postSalaryHandler "u1" (some (.jnum (31 / 2))) "id1" []).1.success = true := by
  have hval : ∀ q : Rat, validateSalaryDate (some (.jnum q)) = .ok q ↔ 1 ≤ q ∧ q ≤ 31 := by
    intro q
    unfold validateSalaryDate jsTruthy
    dsimp only
    constructor
    · intro h
      by_cases hq : q = 0
      · subst hq
        simp at h
      · rw [if_neg (by simp [hq])] at h
        by_cases hr : q < 1 ∨ q > 31
        · rw [if_pos hr] at h
          exact absurd h (by simp)
        · push_neg at hr
          exact ⟨hr.1, hr.2⟩
    · rintro ⟨h1, h31⟩
      have hq : q ≠ 0 := by
        intro h
        rw [h] at h1
        norm_num at h1
      rw [if_neg (by simp [hq])]
      rw [if_neg (by push_neg; exact ⟨by linarith, by linarith⟩)]
  have h155 : validateSalaryDate (some (.jnum (31 / 2))) = .ok (31 / 2) :=
    (hval _).mpr (by norm_num)
  refine ⟨hval, h155, by norm_num, ?_, ?_⟩
  · unfold postSalaryHandler
    rw [h155]
    rfl
  · unfold postSalaryHandler
    rw [h155]
    rfl

/-- C10 witness: the validation equivalence applied at the non-integer
value 15.5 = 31/2. -/
theorem claim_C10_witness :
    validateSalaryDate (some (.jnum (31 / 2))) = .ok (31 / 2) :=
  (claim_C10_no_integrality_check.1 (31 / 2)).mpr (by norm_num)

/- ### Registration: check-then-insert under the users.email UNIQUE
constraint (auth routes POST /auth/register, lines 74-99; schema, users
table with email VARCHAR(255) NOT NULL UNIQUE) -/

/-- Outcome of one registration request for a fixed email. created is the
201 success; conflict is the 409 ConflictError thrown when the SELECT check
finds the email; dupKeyFault is the 500 path taken when the INSERT itself
is rejected by the database UNIQUE(email) constraint. -/
inductive RegOutcome where
  | created
  | conflict
  | dupKeyFault
deriving DecidableEq, Repr

/-- Control state of one in-flight registration request: before the SELECT
check, after the check passed, or finished. -/
inductive RegState where
  | start
  | checked
  | done (o : RegOutcome)
deriving DecidableEq, Repr

/-- The INSERT INTO users of the register handler, with the database-level
UNIQUE(email) constraint of the schema: the insert is atomic and fails
(returning the store unchanged) when the email is already present. -/
def dbInsertUserUnique (email : String) (s : List String) : Bool × List String :=
  if email ∈ s then (false, s) else (true, email :: s)

/-- One atomic step of a registration request: the SELECT ... WHERE
email = ? check (throwing ConflictError when a row exists), then the
guarded INSERT. -/
def regStep (email : String) (p : RegState) (s : List String) :
    RegState × List String :=
  match p with
  | .start => if email ∈ s then (.done .conflict, s) else (.checked, s)
  | .checked =>
    match dbInsertUserUnique email s with
    | (true, s') => (.done .created, s')
    | (false, _) => (.done .dupKeyFault, s)
  | .done o => (.done o, s)

/-- Run two concurrent registration requests for the same email under an
arbitrary interleaving: each schedule entry picks which request performs
its next atomic step. -/
def runReg2 (email : String) : List Bool → RegState → RegState → List String →
    RegState × RegState × List String
  | [], p1, p2, s => (p1, p2, s)
  | b :: rest, p1, p2, s =>
    if b then
      let r := regStep email p1 s
      runReg2 email rest r.1 p2 r.2
    else
      let r := regStep email p2 s
      runReg2 email rest p1 r.1 r.2

/-- Invariant of the two-request interleaving from initial store s0 without
the email: the email is stored iff someone created it, at most one request
created it, two finished requests include a creator, and the store is s0
with at most one copy of the email prepended. -/
def RegInv (email : String) (s0 : List String)
    (p1 p2 : RegState) (s : List String) : Prop :=
  (email ∈ s ↔ (p1 = .done .created ∨ p2 = .done .created)) ∧
  ¬ (p1 = .done .created ∧ p2 = .done .created) ∧
  ((∃ o1, p1 = .done o1) → (∃ o2, p2 = .done o2) →
    (p1 = .done .created ∨ p2 = .done .created)) ∧
  (s = s0 ∨ s = email :: s0)

theorem RegInv_swap (email : String) (s0 : List String)
    (p1 p2 : RegState) (s : List String) (h : RegInv email s0 p1 p2 s) :
    RegInv email s0 p2 p1 s := by
  obtain ⟨h1, h2, h3, h4⟩ := h
  exact ⟨by tauto, by tauto, fun a b => (h3 b a).symm, h4⟩

theorem regStep_preserves (email : String) (s0 : List String)
    (p1 p2 : RegState) (s : List String) (h : RegInv email s0 p1 p2 s) :
    RegInv email s0 (regStep email p1 s).1 p2 (regStep email p1 s).2 := by
  obtain ⟨h1, h2, h3, h4⟩ := h
  cases p1 with
  | start =>
    simp only [regStep]
    by_cases hm : email ∈ s
    · rw [if_pos hm]
      have hp2 : p2 = .done .created := by
        rcases h1.mp hm with hc | hc
        · exact absurd hc (by simp)
        · exact hc
      dsimp only
      refine ⟨?_, ?_, ?_, h4⟩
      · simpa [hp2] using hm
      · simp
      · intro _ _
        right
        exact hp2
    · rw [if_neg hm]
      dsimp only
      refine ⟨?_, ?_, ?_, h4⟩
      · constructor
        · intro hc
          exact absurd hc hm
        · intro hc
          rcases hc with hc | hc
          · exact absurd hc (by simp)
          · exact h1.mpr (Or.inr hc)
      · rintro ⟨hc, _⟩
        exact RegState.noConfusion hc
      · rintro ⟨o, ho⟩
        exact absurd ho (by simp)
  | checked =>
    simp only [regStep, dbInsertUserUnique]
    by_cases hm : email ∈ s
    · rw [if_pos hm]
      have hp2 : p2 = .done .created := by
        rcases h1.mp hm with hc | hc
        · exact absurd hc (by simp)
        · exact hc
      dsimp only
      refine ⟨?_, ?_, ?_, h4⟩
      · simpa [hp2] using hm
      · simp
      · intro _ _
        right
        exact hp2
    · rw [if_neg hm]
      have hp2 : ¬ p2 = .done .created := fun hc => hm (h1.mpr (Or.inr hc))
      have hs : s = s0 := by
        rcases h4 with hs | hs
        · exact hs
        · exact absurd (hs ▸ List.mem_cons_self email s0) hm
      dsimp only
      refine ⟨?_, ?_, ?_, ?_⟩
      · simp
      · rintro ⟨_, hc⟩
        exact hp2 hc
      · intro _ _
        left
        rfl
      · right
        rw [hs]
  | done o =>
    simp only [regStep]
    exact ⟨h1, h2, h3, h4⟩

theorem runReg2_preserves (email : String) (s0 : List String)
    (sched : List Bool) :
    ∀ (p1 p2 : RegState) (s : List String), RegInv email s0 p1 p2 s →
    RegInv email s0 (runReg2 email sched p1 p2 s).1
      (runReg2 email sched p1 p2 s).2.1 (runReg2 email sched p1 p2 s).2.2 := by
  induction sched with
  | nil =>
    intro p1 p2 s h
    exact h
  | cons b rest ih =>
    intro p1 p2 s h
    unfold runReg2
    by_cases hb : b = true
    · rw [if_pos hb]
      exact ih _ _ _ (regStep_preserves email s0 p1 p2 s h)
    · rw [if_neg hb]
      exact ih _ _ _
        (RegInv_swap email s0 _ _ _
          (regStep_preserves email s0 p2 p1 s (RegInv_swap email s0 p1 p2 s h)))

/- ### Claim theorem: registration uniqueness -/

/-- C8: a registration for an email already in the user store fails with
the Conflict outcome and inserts nothing; the INSERT itself is guarded by
the database-level UNIQUE(email) constraint, so it fails whenever the email
is present regardless of the application check; and under every
interleaving of two concurrent registrations for the same fresh email in
which both requests finish, exactly one is created and the store holds a
single copy of the email. -/
theorem claim_C8_register_conflict_and_unique (email : String) (s0 : List String) :
    (email ∈ s0 → regStep email .start s0 = (.done .conflict, s0)) ∧
    (∀ s : List String, email ∈ s → dbInsertUserUnique email s = (false, s)) ∧
    (∀ sched : List Bool, email ∉ s0 →
      ∀ p1 p2 s, runReg2 email sched .start .start s0 = (p1, p2, s) →
      (∃ o1, p1 = RegState.done o1) → (∃ o2, p2 = RegState.done o2) →
      ((p1 = .done .created ∧ ¬ p2 = .done .created) ∨
        (p2 = .done .created ∧ ¬ p1 = .done .created)) ∧ s = email :: s0) := by
  refine ⟨?_, ?_, ?_⟩
  · intro hm
    unfold regStep
    rw [if_pos hm]
  · intro s hm
    unfold dbInsertUserUnique
    rw [if_pos hm]
  · intro sched hm p1 p2 s hrun hd1 hd2
    have hinit : RegInv email s0 .start .start s0 := by
      refine ⟨?_, ?_, ?_, Or.inl rfl⟩
      · constructor
        · intro hc
          exact absurd hc hm
        · rintro (hc | hc) <;> exact absurd hc (by simp)
      · rintro ⟨hc, _⟩
        exact RegState.noConfusion hc
      · rintro ⟨o, ho⟩
        exact absurd ho (by simp)
    have h := runReg2_preserves email s0 sched .start .start s0 hinit
    rw [hrun] at h
    obtain ⟨h1, h2, h3, h4⟩ := h
    have hone := h3 hd1 hd2
    have hsin : s = email :: s0 := by
      rcases h4 with hs | hs
      · subst hs
        exact absurd (h1.mpr hone) hm
      · exact hs
    refine ⟨?_, hsin⟩
    rcases hone with hc | hc
    · exact Or.inl ⟨hc, fun hc2 => h2 ⟨hc, hc2⟩⟩
    · exact Or.inr ⟨hc, fun hc2 => h2 ⟨hc2, hc⟩⟩

/-- C8 witness: the schedule in which request 1 checks and inserts and then
request 2 checks: request 1 is created, request 2 gets the Conflict
outcome, and the store holds one copy of the email. -/
theorem claim_C8_witness :
    ((RegState.done .created = RegState.done .created ∧
        ¬ RegState.done RegOutcome.conflict = RegState.done .created) ∨
      (RegState.done RegOutcome.conflict = RegState.done .created ∧
        ¬ RegState.done RegOutcome.created = RegState.done .created)) ∧
    ["a@b.c"] = "a@b.c" :: ([] : List String) :=
  (claim_C8_register_conflict_and_unique "a@b.c" []).2.2
    [true, true, false, false] (by simp) (.done .created) (.done .conflict)
    ["a@b.c"] (by decide) ⟨_, rfl⟩ ⟨_, rfl⟩

end ExpenseCalc
